import Mathlib

/-!
Verification of the model-reference resolution and exposure-aggregation
engine of the dbt-exposures-crawler repository
(`src/exposurescrawler/crawlers/tableau.py`), as a shallow embedding in
Lean 4.

Python dictionaries are modelled as association lists (`List (κ × β)`)
whose key lists are `Nodup` where dict semantics matters; dict iteration
order is insertion order, which the association lists preserve.  Logging
calls are irrelevant to the observable results and are not modelled.
External collaborators (the Tableau REST client, the dbt manifest) are
passed in as explicit function parameters, as the spec prescribes for a
capability-style reimplementation.
-/

set_option autoImplicit false

namespace ExposuresCrawler

/-- A Tableau workbook reference: identifier plus display name.  Used as the
dictionary key through the whole pipeline (`WorkbookModelsMapping` keys). -/
structure WorkbookRef where
  id : Nat
  name : String
deriving DecidableEq, Repr

/-- A dbt manifest record for a model or source, as the node dicts coming from
`manifest.json`: a stable unique id, the warehouse location fields and the
materialized (warehouse) name. -/
structure ModelRec where
  unique_id : String
  database : String
  schema_name : String
  materialized_name : String
deriving DecidableEq, Repr

/-- Workbook metadata as returned by `TableauRestClient.retrieve_workbook`:
display name, owning project name (empty string means personal space), and
the owner's identifier. -/
structure Workbook where
  name : String
  project_name : String
  owner_id : Nat
deriving DecidableEq, Repr

/-- Owner metadata as returned by `TableauRestClient.retrieve_user`. -/
structure TableauUser where
  name : String
deriving DecidableEq, Repr

/-- Association-list lookup, the model of Python `dict[k]` / `dict.get(k)`. -/
def alookup {κ β : Type} [DecidableEq κ] (k : κ) : List (κ × β) → Option β
  | [] => none
  | (k', v) :: rest => if k' = k then some v else alookup k rest

/-- The key list of an association list (Python `dict.keys()`). -/
def keys {κ β : Type} (m : List (κ × β)) : List κ :=
  m.map (fun p => p.1)

/-- Embeds `_should_ignore_workbook` (tableau.py lines 20-27): a workbook is
ignored when its project name is falsy (empty: the personal-space
convention) or when the project name is in the caller-supplied collection
of projects to ignore. -/
def should_ignore_workbook (workbook : Workbook) (projects_to_ignore : List String) : Bool :=
  if workbook.project_name = "" then
    true
  else
    projects_to_ignore.contains workbook.project_name

/-- Embeds `_parse_tables_from_sql` (tableau.py lines 30-66).  The matcher
`search_model_in_query` is abstracted as the function `search` returning, for
one SQL snippet, the list of matched manifest records (the `.values()` of the
mapping it builds, in insertion order).  For each workbook the records found
in all of its snippets are concatenated (`all_found.extend(...)`, run only
for truthy i.e. non-empty per-snippet results, which equals concatenating
all of them); the workbook is added to the output dict only when `all_found`
is truthy, i.e. non-empty. -/
def parse_tables_from_sql (search : String → List ModelRec) :
    List (WorkbookRef × List String) → List (WorkbookRef × List ModelRec)
  | [] => []
  | (workbook_reference, custom_sqls) :: rest =>
    let all_found : List ModelRec := (custom_sqls.map search).flatten
    if all_found.isEmpty then
      parse_tables_from_sql search rest
    else
      (workbook_reference, all_found) :: parse_tables_from_sql search rest

/-- One step of the merge loop in `tableau_crawler` (tableau.py line 124):
`workbooks_models.setdefault(workbook_reference, []).extend(found)`.
If the key is present its list is extended in place; otherwise the key is
inserted at the end (Python dicts append new keys) with the new list. -/
def setdefault_extend {κ α : Type} [DecidableEq κ] (m : List (κ × List α)) (k : κ)
    (v : List α) : List (κ × List α) :=
  match m with
  | [] => [(k, v)]
  | (k', v') :: rest =>
    if k' = k then (k', v' ++ v) :: rest else (k', v') :: setdefault_extend rest k v

/-- Embeds the merge stage of `tableau_crawler` (tableau.py lines 119-124):
starting from an empty dict, iterate `itertools.chain(a.items(), b.items())`
and `setdefault`-extend each entry. -/
def merge_workbooks_models (a b : List (WorkbookRef × List ModelRec)) :
    List (WorkbookRef × List ModelRec) :=
  (a ++ b).foldl (fun m p => setdefault_extend m p.1 p.2) []

/-- The concatenation of the value lists of all entries of `l` whose key is
`k`, in entry order.  This is what the merge loop accumulates for key `k`. -/
def collect {κ α : Type} [DecidableEq κ] (k : κ) (l : List (κ × List α)) : List α :=
  ((l.filter (fun p => decide (p.1 = k))).map (fun p => p.2)).flatten

/-- Whether some entry of `l` has key `k` (Python `k in dict`). -/
def hasKey {κ β : Type} [DecidableEq κ] (k : κ) (l : List (κ × β)) : Bool :=
  l.any (fun p => decide (p.1 = k))

/-! ### Spec-modelled parts

The matcher (`exposurescrawler/utils/query_parsing.py`) and the exposure
class (`exposurescrawler/dbt/exposure.py`) are referenced by
`tableau.py` but their files are not part of the sources; they are
modelled from the spec below. -/

/-- A character that can be part of a SQL identifier; everything else
(whitespace, punctuation, quoting characters) is a token boundary. -/
def isIdentChar (c : Char) : Bool := c.isAlphanum || c = '_'

/-- Case normalization used for case-insensitive matching. -/
def lowerChars (s : List Char) : List Char := s.map Char.toLower

/-- A character adjacent to a candidate occurrence: `none` (text edge) or a
non-identifier character are acceptable token boundaries. -/
def boundaryOk : Option Char → Bool
  | none => true
  | some d => !isIdentChar d

/-- Whether `name` occurs in `text` starting at position `i` as a distinct
token: the characters match and both neighbouring characters (when they
exist) are non-identifier characters. -/
def occursTokenAt (name text : List Char) (i : Nat) : Bool :=
  decide ((text.drop i).take name.length = name)
    && boundaryOk (if i = 0 then none else text[i - 1]?)
    && boundaryOk (text[i + name.length]?)

/-- Whether `name` occurs anywhere in `text` as a distinct token. -/
def containsToken (name text : List Char) : Bool :=
  (List.range (text.length + 1)).any (occursTokenAt name text)

/-- `name` occurs in `text` as a standalone token: the text decomposes as
`pre ++ name ++ post` and the last character of `pre` (when `pre` is
non-empty) and the first character of `post` (when `post` is non-empty) are
non-identifier characters. -/
def OccursAsToken (name text : List Char) : Prop :=
  ∃ pre post, text = pre ++ name ++ post ∧
    boundaryOk pre.getLast? = true ∧ boundaryOk post.head? = true

/-- Modelled from the spec: the warehouse-qualified name of a manifest
record (§6 lists database, schema and relation name as the identifier
fields; the qualified name joins them with dots). -/
def model_qualified_name (m : ModelRec) : String :=
  m.database ++ "." ++ m.schema_name ++ "." ++ m.materialized_name

/-- Modelled from the spec: `search_model_in_query` from
`exposurescrawler/utils/query_parsing.py` is not among the sources.  Spec
§4.2: for each relation of the registry, test whether its qualified or
unqualified name occurs as a distinct token (not as a substring of a longer
identifier) within the SQL text, case-insensitively, tolerant of quoting
characters around identifiers; the result keeps the original manifest
records.  Quoting tolerance holds because quoting characters are
non-identifier characters and therefore valid token boundaries. -/
def search_model_in_query (query : String) (models : List ModelRec) : List ModelRec :=
  models.filter (fun m =>
    containsToken (lowerChars m.materialized_name.toList) (lowerChars query.toList)
      || containsToken (lowerChars (model_qualified_name m).toList) (lowerChars query.toList))

/-- Modelled from the spec: `DbtExposure.from_tableau_workbook`
(`exposurescrawler/dbt/exposure.py`, not among the sources) receives the
merged match list; tableau.py line 118 states "Duplicates will be handled
in the DbtExposure class" and spec §4.5 step 3 requires deduplication by
relation unique id with a deterministic tie-break.  The first occurrence
wins here. -/
def dedup_by_unique_id : List ModelRec → List ModelRec
  | [] => []
  | r :: rest =>
    r :: dedup_by_unique_id (rest.filter (fun s => decide (s.unique_id ≠ r.unique_id)))
termination_by l => l.length
decreasing_by
  simp only [List.length_cons]
  exact Nat.lt_succ_of_le (List.length_filter_le _ _)

/-- Modelled from the spec: the depends-on list of the constructed Exposure
is the deduplicated relation unique-id list (§4.5 steps 3-4). -/
def exposure_depends_on (found : List ModelRec) : List String :=
  (dedup_by_unique_id found).map (fun m => m.unique_id)

/-! ### Trace model of the exposure-building loop

The loop of `tableau_crawler` (tableau.py lines 140-151) and the final
persistence step (line 159) are modelled as a trace of the externally
observable operations, with the Tableau REST client passed in as
functions. -/

/-- Externally observable operations of the crawler's final phase. -/
inductive Event where
  | fetchWorkbook (workbook_id : Nat)
  | fetchUser (user_id : Nat)
  | addExposure (workbook_id : Nat)
  | skipWorkbook (workbook_id : Nat)
  | persist
deriving DecidableEq, Repr

/-- Embeds the loop of tableau.py lines 140-151 with total collaborators:
for each entry of the merged mapping, in order, retrieve the workbook, then
retrieve its owner, then either skip (`continue`) when
`_should_ignore_workbook` holds or construct and register one exposure. -/
def build_exposures (retrieve_workbook : Nat → Workbook)
    (retrieve_user : Nat → TableauUser) (projects_to_ignore : List String) :
    List (WorkbookRef × List ModelRec) → List Event
  | [] => []
  | (workbook_reference, _found) :: rest =>
    let workbook := retrieve_workbook workbook_reference.id
    let _owner := retrieve_user workbook.owner_id
    Event.fetchWorkbook workbook_reference.id
      :: Event.fetchUser workbook.owner_id
      :: (if should_ignore_workbook workbook projects_to_ignore then
            Event.skipWorkbook workbook_reference.id
          else
            Event.addExposure workbook_reference.id)
      :: build_exposures retrieve_workbook retrieve_user projects_to_ignore rest

/-- Embeds the same loop with fallible collaborators (Python exceptions
modelled as `Except`): a failing `retrieve_workbook` or `retrieve_user`
stops the loop at once, and the returned trace holds only the events that
happened before the failure, paired with the raised error. -/
def build_exposures_exc {ε : Type} (retrieve_workbook : Nat → Except ε Workbook)
    (retrieve_user : Nat → Except ε TableauUser) (projects_to_ignore : List String) :
    List (WorkbookRef × List ModelRec) → List Event × Option ε
  | [] => ([], none)
  | (workbook_reference, _found) :: rest =>
    match retrieve_workbook workbook_reference.id with
    | Except.error e => ([], some e)
    | Except.ok workbook =>
      match retrieve_user workbook.owner_id with
      | Except.error e => ([Event.fetchWorkbook workbook_reference.id], some e)
      | Except.ok _owner =>
        let t := build_exposures_exc retrieve_workbook retrieve_user projects_to_ignore rest
        (Event.fetchWorkbook workbook_reference.id
           :: Event.fetchUser workbook.owner_id
           :: (if should_ignore_workbook workbook projects_to_ignore then
                 Event.skipWorkbook workbook_reference.id
               else
                 Event.addExposure workbook_reference.id)
           :: t.1,
         t.2)

/-- Embeds the tail of `tableau_crawler` (tableau.py lines 140-159): run the
exposure loop; the manifest is persisted (line 159) only when the loop
finished without an exception, since an exception propagates out of
`tableau_crawler` before reaching the save call. -/
def run_crawler_exc {ε : Type} (retrieve_workbook : Nat → Except ε Workbook)
    (retrieve_user : Nat → Except ε TableauUser) (projects_to_ignore : List String)
    (workbooks_models : List (WorkbookRef × List ModelRec)) : List Event × Option ε :=
  match build_exposures_exc retrieve_workbook retrieve_user projects_to_ignore
      workbooks_models with
  | (t, none) => (t ++ [Event.persist], none)
  | (t, some e) => (t, some e)

/-! ### Exception-aware aggregator (for the snippet-failure claim) -/

/-- The inner snippet loop of `_parse_tables_from_sql` (tableau.py lines
49-51) with a fallible matcher: snippets are scanned in order and a raised
error propagates immediately (there is no try/except in the loop). -/
def search_all_exc {ε : Type} (search : String → Except ε (List ModelRec)) :
    List String → Except ε (List ModelRec)
  | [] => Except.ok []
  | q :: qs =>
    match search q with
    | Except.error e => Except.error e
    | Except.ok found =>
      match search_all_exc search qs with
      | Except.error e => Except.error e
      | Except.ok rest => Except.ok (found ++ rest)

/-- `_parse_tables_from_sql` with a fallible matcher: a matcher error on any
snippet of any workbook propagates out of the whole call. -/
def parse_tables_from_sql_exc {ε : Type} (search : String → Except ε (List ModelRec)) :
    List (WorkbookRef × List String) → Except ε (List (WorkbookRef × List ModelRec))
  | [] => Except.ok []
  | (workbook_reference, custom_sqls) :: rest =>
    match search_all_exc search custom_sqls with
    | Except.error e => Except.error e
    | Except.ok all_found =>
      match parse_tables_from_sql_exc search rest with
      | Except.error e => Except.error e
      | Except.ok out =>
        Except.ok (if all_found.isEmpty then out else (workbook_reference, all_found) :: out)

/-! ### Concrete fixtures used by witnesses and counterexamples -/

def recOrders : ModelRec :=
  { unique_id := "model.jaffle_shop.orders"
    database := "analytics"
    schema_name := "public"
    materialized_name := "orders" }

def recCustomers : ModelRec :=
  { unique_id := "model.jaffle_shop.customers"
    database := "analytics"
    schema_name := "public"
    materialized_name := "customers" }

def dashA : WorkbookRef := { id := 1, name := "Sales overview" }

def dashB : WorkbookRef := { id := 2, name := "Marketing funnel" }

/-- A simple total matcher used to exercise the aggregator. -/
def exSearch (q : String) : List ModelRec :=
  if q = "select * from orders" then [recOrders]
  else if q = "select * from customers" then [recCustomers]
  else []

def exCustomWs : List (WorkbookRef × List String) :=
  [(dashA, ["select * from orders", "zzz"]), (dashB, ["zzz"])]

def exA : List (WorkbookRef × List ModelRec) := [(dashA, [recOrders])]

def exB : List (WorkbookRef × List ModelRec) :=
  [(dashA, [recCustomers]), (dashB, [recCustomers])]

/-- A concrete workbook-metadata collaborator: workbook 1 lives in project
"Sales", every other workbook sits in a personal space (empty project). -/
def exRetrieveWorkbook (i : Nat) : Workbook :=
  if i = 1 then { name := "wbA", project_name := "Sales", owner_id := 10 }
  else { name := "wbB", project_name := "", owner_id := 11 }

/-- A concrete owner-metadata collaborator. -/
def exRetrieveUser (_i : Nat) : TableauUser := { name := "alice" }

/-- A fallible workbook collaborator failing for every workbook except 1. -/
def exRetrieveWorkbookExc (i : Nat) : Except String Workbook :=
  if i = 1 then Except.ok { name := "wbA", project_name := "Sales", owner_id := 10 }
  else Except.error "boom"

/-- A fallible owner collaborator that always succeeds. -/
def exRetrieveUserExc (_i : Nat) : Except String TableauUser :=
  Except.ok { name := "alice" }

/-- The metadata fetch of tableau.py lines 141-142 fails for workbook `wr`:
either `retrieve_workbook` raises, or it succeeds and `retrieve_user` raises
on the returned owner id. -/
def fetch_fails {ε : Type} (retrieve_workbook : Nat → Except ε Workbook)
    (retrieve_user : Nat → Except ε TableauUser) (wr : WorkbookRef) : Prop :=
  (∃ e, retrieve_workbook wr.id = Except.error e) ∨
  (∃ wb e, retrieve_workbook wr.id = Except.ok wb ∧
    retrieve_user wb.owner_id = Except.error e)

/-- A fallible matcher raising on one specific snippet. -/
def badSearch (q : String) : Except String (List ModelRec) :=
  if q = "BROKEN" then Except.error "scan failure"
  else if q = "select * from orders" then Except.ok [recOrders]
  else Except.ok []

/-- A workbook list whose first snippet makes `badSearch` raise and whose
second snippet matches a model. -/
def exBrokenWs : List (WorkbookRef × List String) :=
  [(dashA, ["BROKEN", "select * from orders"])]

theorem alookup_eq_none_iff {κ β : Type} [DecidableEq κ] (k : κ) (l : List (κ × β)) :
    alookup k l = none ↔ k ∉ keys l := by
  induction l with
  | nil => simp [alookup, keys]
  | cons p rest ih =>
    obtain ⟨k', v⟩ := p
    by_cases h : k' = k
    · subst h
      simp [alookup, keys]
    · have h2 : ¬ k = k' := fun hc => h hc.symm
      simp [alookup, keys, h, h2, ih]

theorem mem_keys_of_alookup {κ β : Type} [DecidableEq κ] {k : κ} {l : List (κ × β)}
    {v : β} (h : alookup k l = some v) : k ∈ keys l := by
  by_contra hk
  rw [← alookup_eq_none_iff] at hk
  rw [hk] at h
  exact Option.noConfusion h

theorem hasKey_eq_isSome {κ β : Type} [DecidableEq κ] (k : κ) (l : List (κ × β)) :
    hasKey k l = (alookup k l).isSome := by
  induction l with
  | nil => simp [hasKey, alookup]
  | cons p rest ih =>
    obtain ⟨k', v⟩ := p
    by_cases h : k' = k
    · simp [hasKey, alookup, h]
    · have hK : hasKey k ((k', v) :: rest) = hasKey k rest := by simp [hasKey, h]
      rw [hK, ih]
      simp [alookup, h]

theorem alookup_setdefault_extend {κ α : Type} [DecidableEq κ] (m : List (κ × List α))
    (k' : κ) (v : List α) (k : κ) :
    alookup k (setdefault_extend m k' v) =
      if k' = k then some ((alookup k m).getD [] ++ v) else alookup k m := by
  induction m with
  | nil =>
    by_cases h : k' = k <;> simp [setdefault_extend, alookup, h]
  | cons p rest ih =>
    obtain ⟨k₀, v₀⟩ := p
    by_cases h0 : k₀ = k'
    · subst h0
      by_cases h : k₀ = k <;> simp [setdefault_extend, alookup, h]
    · by_cases h : k₀ = k
      · subst h
        have hne : ¬ k' = k₀ := fun hc => h0 hc.symm
        simp [setdefault_extend, alookup, h0, hne]
      · simp [setdefault_extend, alookup, h0, h, ih]

theorem keys_setdefault_extend {κ α : Type} [DecidableEq κ] (m : List (κ × List α))
    (k : κ) (v : List α) :
    keys (setdefault_extend m k v) = if hasKey k m then keys m else keys m ++ [k] := by
  induction m with
  | nil => simp [setdefault_extend, keys, hasKey]
  | cons p rest ih =>
    obtain ⟨k₀, v₀⟩ := p
    by_cases h : k₀ = k
    · subst h
      simp [setdefault_extend, keys, hasKey]
    · have hstep : setdefault_extend ((k₀, v₀) :: rest) k v
        = (k₀, v₀) :: setdefault_extend rest k v := by
        simp [setdefault_extend, h]
      have hk : hasKey k ((k₀, v₀) :: rest) = hasKey k rest := by
        simp [hasKey, h]
      rw [hstep, hk]
      by_cases hr : hasKey k rest
      · simp only [hr, if_true] at ih ⊢
        simpa [keys] using ih
      · simp only [hr, Bool.false_eq_true, if_false] at ih ⊢
        simpa [keys] using ih

theorem nodup_keys_setdefault_extend {κ α : Type} [DecidableEq κ]
    {m : List (κ × List α)} (k : κ) (v : List α) (h : (keys m).Nodup) :
    (keys (setdefault_extend m k v)).Nodup := by
  rw [keys_setdefault_extend]
  by_cases hk : hasKey k m
  · simpa [hk]
  · have hkk : k ∉ keys m := by
      rw [← alookup_eq_none_iff]
      rw [hasKey_eq_isSome] at hk
      exact Option.not_isSome_iff_eq_none.mp (by simpa using hk)
    simp [hk, List.nodup_append, hkk, h]

theorem collect_cons {κ α : Type} [DecidableEq κ] (k k₀ : κ) (v₀ : List α)
    (rest : List (κ × List α)) :
    collect k ((k₀, v₀) :: rest) =
      if k₀ = k then v₀ ++ collect k rest else collect k rest := by
  by_cases h : k₀ = k <;> simp [collect, h]

theorem alookup_foldl_setdefault {κ α : Type} [DecidableEq κ]
    (l : List (κ × List α)) (m : List (κ × List α)) (k : κ) :
    alookup k (l.foldl (fun acc p => setdefault_extend acc p.1 p.2) m) =
      match alookup k m with
      | some w => some (w ++ collect k l)
      | none => if hasKey k l then some (collect k l) else none := by
  induction l generalizing m with
  | nil =>
    cases h : alookup k m <;> simp [collect, hasKey, h]
  | cons p rest ih =>
    obtain ⟨k₀, v₀⟩ := p
    rw [List.foldl_cons, ih]
    rw [alookup_setdefault_extend]
    by_cases h0 : k₀ = k
    · subst h0
      have hKc : hasKey k₀ ((k₀, v₀) :: rest) = true := by simp [hasKey]
      have hCc : collect k₀ ((k₀, v₀) :: rest) = v₀ ++ collect k₀ rest := by
        rw [collect_cons, if_pos rfl]
      cases h : alookup k₀ m with
      | none => simp [hKc, hCc]
      | some w => simp [hKc, hCc]
    · have hKc : hasKey k ((k₀, v₀) :: rest) = hasKey k rest := by
        simp [hasKey, h0]
      have hCc : collect k ((k₀, v₀) :: rest) = collect k rest := by
        rw [collect_cons, if_neg h0]
      cases h : alookup k m with
      | none => simp [h0, hKc, hCc]
      | some w => simp [h0, hKc, hCc]

theorem collect_eq_nil_of_not_mem {κ α : Type} [DecidableEq κ] {k : κ}
    {l : List (κ × List α)} (h : k ∉ keys l) : collect k l = [] := by
  induction l with
  | nil => simp [collect]
  | cons p rest ih =>
    obtain ⟨k₀, v₀⟩ := p
    have hkeys : keys ((k₀, v₀) :: rest) = k₀ :: keys rest := by simp [keys]
    rw [hkeys, List.mem_cons] at h
    push_neg at h
    rw [collect_cons, if_neg (fun hc => h.1 hc.symm)]
    exact ih h.2

theorem collect_eq_getD_of_nodup {κ α : Type} [DecidableEq κ] {l : List (κ × List α)}
    (h : (keys l).Nodup) (k : κ) : collect k l = (alookup k l).getD [] := by
  induction l with
  | nil => simp [collect, alookup]
  | cons p rest ih =>
    obtain ⟨k₀, v₀⟩ := p
    have hkeys : keys ((k₀, v₀) :: rest) = k₀ :: keys rest := by simp [keys]
    rw [hkeys, List.nodup_cons] at h
    rw [collect_cons]
    by_cases h0 : k₀ = k
    · subst h0
      rw [if_pos rfl]
      simp [alookup, collect_eq_nil_of_not_mem h.1]
    · rw [if_neg h0]
      simp [alookup, h0, ih h.2]

theorem collect_append {κ α : Type} [DecidableEq κ] (k : κ) (a b : List (κ × List α)) :
    collect k (a ++ b) = collect k a ++ collect k b := by
  simp [collect, List.filter_append]

theorem hasKey_append {κ β : Type} [DecidableEq κ] (k : κ) (a b : List (κ × β)) :
    hasKey k (a ++ b) = (hasKey k a || hasKey k b) := by
  simp [hasKey]

theorem alookup_merge_workbooks_models (a b : List (WorkbookRef × List ModelRec))
    (ha : (keys a).Nodup) (hb : (keys b).Nodup) (k : WorkbookRef) :
    alookup k (merge_workbooks_models a b) =
      match alookup k a, alookup k b with
      | some x, some y => some (x ++ y)
      | some x, none => some x
      | none, some y => some y
      | none, none => none := by
  have h := alookup_foldl_setdefault (a ++ b) ([] : List (WorkbookRef × List ModelRec)) k
  simp only [alookup] at h
  rw [merge_workbooks_models, h]
  rw [hasKey_append, collect_append, collect_eq_getD_of_nodup ha, collect_eq_getD_of_nodup hb,
    hasKey_eq_isSome, hasKey_eq_isSome]
  cases hA : alookup k a <;> cases hB : alookup k b <;> simp

theorem nodup_keys_foldl_setdefault {κ α : Type} [DecidableEq κ]
    (l : List (κ × List α)) (m : List (κ × List α)) (h : (keys m).Nodup) :
    (keys (l.foldl (fun acc p => setdefault_extend acc p.1 p.2) m)).Nodup := by
  induction l generalizing m with
  | nil => exact h
  | cons p rest ih => exact ih _ (nodup_keys_setdefault_extend _ _ h)

theorem nodup_keys_merge_workbooks_models (a b : List (WorkbookRef × List ModelRec)) :
    (keys (merge_workbooks_models a b)).Nodup :=
  nodup_keys_foldl_setdefault _ _ (by simp [keys])

theorem keys_parse_tables_subset (search : String → List ModelRec)
    (ws : List (WorkbookRef × List String)) :
    ∀ wr, wr ∈ keys (parse_tables_from_sql search ws) → wr ∈ keys ws := by
  induction ws with
  | nil => simp [parse_tables_from_sql, keys]
  | cons p rest ih =>
    obtain ⟨wr0, sqls0⟩ := p
    intro wr h
    by_cases he : ((sqls0.map search).flatten).isEmpty
    · rw [show parse_tables_from_sql search ((wr0, sqls0) :: rest)
          = parse_tables_from_sql search rest from by
        simp [parse_tables_from_sql, he]] at h
      simp only [keys, List.map_cons, List.mem_cons]
      exact Or.inr (ih wr h)
    · rw [show parse_tables_from_sql search ((wr0, sqls0) :: rest)
          = (wr0, (sqls0.map search).flatten) :: parse_tables_from_sql search rest from by
        simp [parse_tables_from_sql, he]] at h
      simp only [keys, List.map_cons, List.mem_cons] at h ⊢
      rcases h with h | h
      · exact Or.inl h
      · exact Or.inr (ih wr h)

theorem alookup_parse_tables (search : String → List ModelRec)
    (ws : List (WorkbookRef × List String)) (hnd : (keys ws).Nodup)
    {wr : WorkbookRef} {sqls : List String} (hmem : (wr, sqls) ∈ ws) :
    alookup wr (parse_tables_from_sql search ws) =
      if ((sqls.map search).flatten).isEmpty then none
      else some ((sqls.map search).flatten) := by
  induction ws with
  | nil => cases hmem
  | cons p rest ih =>
    obtain ⟨wr0, sqls0⟩ := p
    have hkeys : keys ((wr0, sqls0) :: rest) = wr0 :: keys rest := by simp [keys]
    rw [hkeys, List.nodup_cons] at hnd
    rcases List.mem_cons.mp hmem with heq | hmem'
    · obtain ⟨h1, h2⟩ := Prod.mk.injEq .. ▸ heq
      subst h1
      subst h2
      have hnone : alookup wr (parse_tables_from_sql search rest) = none := by
        rw [alookup_eq_none_iff]
        exact fun hc => hnd.1 (keys_parse_tables_subset search rest wr hc)
      by_cases he : ((sqls.map search).flatten).isEmpty
      · rw [show parse_tables_from_sql search ((wr, sqls) :: rest)
            = parse_tables_from_sql search rest from by
          simp [parse_tables_from_sql, he]]
        rw [if_pos he]
        exact hnone
      · rw [show parse_tables_from_sql search ((wr, sqls) :: rest)
            = (wr, (sqls.map search).flatten) :: parse_tables_from_sql search rest from by
          simp [parse_tables_from_sql, he]]
        rw [if_neg he]
        simp [alookup]
    · have hwr : wr ∈ keys rest := by
        simp only [keys, List.mem_map]
        exact ⟨(wr, sqls), hmem', rfl⟩
      have hne : ¬ wr0 = wr := fun hc => hnd.1 (hc ▸ hwr)
      by_cases he : ((sqls0.map search).flatten).isEmpty
      · rw [show parse_tables_from_sql search ((wr0, sqls0) :: rest)
            = parse_tables_from_sql search rest from by
          simp [parse_tables_from_sql, he]]
        exact ih hnd.2 hmem'
      · rw [show parse_tables_from_sql search ((wr0, sqls0) :: rest)
            = (wr0, (sqls0.map search).flatten) :: parse_tables_from_sql search rest from by
          simp [parse_tables_from_sql, he]]
        rw [show alookup wr ((wr0, (sqls0.map search).flatten)
            :: parse_tables_from_sql search rest)
          = alookup wr (parse_tables_from_sql search rest) from by
          simp [alookup, hne]]
        exact ih hnd.2 hmem'

theorem parse_tables_values_nonempty (search : String → List ModelRec)
    (ws : List (WorkbookRef × List String)) :
    ∀ p ∈ parse_tables_from_sql search ws, p.2 ≠ [] := by
  induction ws with
  | nil => simp [parse_tables_from_sql]
  | cons q rest ih =>
    obtain ⟨wr0, sqls0⟩ := q
    intro p hp
    by_cases he : ((sqls0.map search).flatten).isEmpty
    · rw [show parse_tables_from_sql search ((wr0, sqls0) :: rest)
          = parse_tables_from_sql search rest from by
        simp [parse_tables_from_sql, he]] at hp
      exact ih p hp
    · rw [show parse_tables_from_sql search ((wr0, sqls0) :: rest)
          = (wr0, (sqls0.map search).flatten) :: parse_tables_from_sql search rest from by
        simp [parse_tables_from_sql, he]] at hp
      rcases List.mem_cons.mp hp with h | h
      · subst h
        intro hc
        exact he (List.isEmpty_iff.mpr hc)
      · exact ih p h

theorem setdefault_values_nonempty {κ α : Type} [DecidableEq κ]
    {m : List (κ × List α)} {k : κ} {v : List α}
    (hm : ∀ p ∈ m, p.2 ≠ []) (hv : v ≠ []) :
    ∀ p ∈ setdefault_extend m k v, p.2 ≠ [] := by
  induction m with
  | nil =>
    intro p hp
    simp only [setdefault_extend, List.mem_singleton] at hp
    subst hp
    exact hv
  | cons q rest ih =>
    obtain ⟨k₀, v₀⟩ := q
    intro p hp
    by_cases h : k₀ = k
    · rw [show setdefault_extend ((k₀, v₀) :: rest) k v = (k₀, v₀ ++ v) :: rest from by
        simp [setdefault_extend, h]] at hp
      rcases List.mem_cons.mp hp with h1 | h1
      · subst h1
        intro hc
        exact hv (List.append_eq_nil.mp hc).2
      · exact hm p (List.mem_cons_of_mem _ h1)
    · rw [show setdefault_extend ((k₀, v₀) :: rest) k v
          = (k₀, v₀) :: setdefault_extend rest k v from by
        simp [setdefault_extend, h]] at hp
      rcases List.mem_cons.mp hp with h1 | h1
      · subst h1
        exact hm (k₀, v₀) (by simp)
      · exact ih (fun p hp => hm p (List.mem_cons_of_mem _ hp)) p h1

theorem foldl_setdefault_values_nonempty {κ α : Type} [DecidableEq κ]
    (l : List (κ × List α)) (m : List (κ × List α))
    (hm : ∀ p ∈ m, p.2 ≠ []) (hl : ∀ p ∈ l, p.2 ≠ []) :
    ∀ p ∈ l.foldl (fun acc q => setdefault_extend acc q.1 q.2) m, p.2 ≠ [] := by
  induction l generalizing m with
  | nil => exact hm
  | cons q rest ih =>
    exact ih _ (setdefault_values_nonempty hm (hl q (by simp)))
      (fun p hp => hl p (List.mem_cons_of_mem _ hp))

theorem merge_values_nonempty (a b : List (WorkbookRef × List ModelRec))
    (hA : ∀ p ∈ a, p.2 ≠ []) (hB : ∀ p ∈ b, p.2 ≠ []) :
    ∀ p ∈ merge_workbooks_models a b, p.2 ≠ [] := by
  refine foldl_setdefault_values_nonempty (a ++ b) [] (by simp) ?_
  intro p hp
  rcases List.mem_append.mp hp with h | h
  · exact hA p h
  · exact hB p h

/-! ### Claim theorems -/

/-- C1: for every input mapping of dashboard references to lists of SQL
snippets (with distinct keys, as a Python dict has), `_parse_tables_from_sql`
produces, per dashboard, the concatenation of the values of the matcher's
per-snippet result mappings taken in snippet order; a dashboard is a key of
the output mapping iff that concatenated list is non-empty, and no dashboard
outside the input appears in the output. -/
theorem parse_tables_from_sql_aggregates (search : String → List ModelRec)
    (ws : List (WorkbookRef × List String)) (hnd : (keys ws).Nodup) :
    (∀ wr sqls, (wr, sqls) ∈ ws →
      alookup wr (parse_tables_from_sql search ws) =
        (if ((sqls.map search).flatten).isEmpty then none
         else some ((sqls.map search).flatten))) ∧
    (∀ wr sqls, (wr, sqls) ∈ ws →
      (wr ∈ keys (parse_tables_from_sql search ws) ↔ (sqls.map search).flatten ≠ [])) ∧
    (∀ wr, wr ∈ keys (parse_tables_from_sql search ws) → wr ∈ keys ws) := by
  refine ⟨fun wr sqls hmem => alookup_parse_tables search ws hnd hmem, ?_,
    keys_parse_tables_subset search ws⟩
  intro wr sqls hmem
  have h := alookup_parse_tables search ws hnd hmem
  by_cases he : ((sqls.map search).flatten).isEmpty
  · rw [if_pos he] at h
    rw [alookup_eq_none_iff] at h
    simp only [h, false_iff]
    intro hc
    exact hc (List.isEmpty_iff.mp he)
  · rw [if_neg he] at h
    have hk := mem_keys_of_alookup h
    simp only [hk, true_iff]
    intro hc
    exact he (List.isEmpty_iff.mpr hc)

/-- C1 witness: on a concrete input, the dashboard with a matching snippet
maps to the concatenated match list and the dashboard with no matching
snippet is absent. -/
theorem parse_tables_from_sql_aggregates_witness :
    (keys exCustomWs).Nodup ∧
    alookup dashA (parse_tables_from_sql exSearch exCustomWs) = some [recOrders] ∧
    alookup dashB (parse_tables_from_sql exSearch exCustomWs) = none := by
  refine ⟨by decide, ?_, ?_⟩
  · have h := (parse_tables_from_sql_aggregates exSearch exCustomWs (by decide)).1
      dashA ["select * from orders", "zzz"] (by simp [exCustomWs])
    rw [h]
    decide
  · have h := (parse_tables_from_sql_aggregates exSearch exCustomWs (by decide)).1
      dashB ["zzz"] (by simp [exCustomWs])
    rw [h]
    decide

/-- C2: for key-distinct inputs, the merge loop of `tableau_crawler` yields a
mapping whose lookup is the custom-then-native concatenation where both are
present, the single value where one is present, and nothing otherwise; the
merged key set is exactly the union of the two input key sets. -/
theorem merge_workbooks_models_spec (a b : List (WorkbookRef × List ModelRec))
    (ha : (keys a).Nodup) (hb : (keys b).Nodup) :
    (∀ k, alookup k (merge_workbooks_models a b) =
      match alookup k a, alookup k b with
      | some x, some y => some (x ++ y)
      | some x, none => some x
      | none, some y => some y
      | none, none => none) ∧
    (∀ k, k ∈ keys (merge_workbooks_models a b) ↔ k ∈ keys a ∨ k ∈ keys b) := by
  refine ⟨fun k => alookup_merge_workbooks_models a b ha hb k, ?_⟩
  intro k
  have hmem : ∀ (l : List (WorkbookRef × List ModelRec)),
      k ∈ keys l ↔ ¬ alookup k l = none := by
    intro l
    rw [alookup_eq_none_iff]
    tauto
  rw [hmem, hmem, hmem, alookup_merge_workbooks_models a b ha hb k]
  cases alookup k a <;> cases alookup k b <;> simp

/-- C2 witness: on concrete inputs, a dashboard present in both sources gets
the concatenation with the duplicate record preserved, and membership in the
merged key set matches the union. -/
theorem merge_workbooks_models_spec_witness :
    (keys exA).Nodup ∧ (keys exB).Nodup ∧
    alookup dashA (merge_workbooks_models exA exB) = some [recOrders, recCustomers] ∧
    (dashB ∈ keys (merge_workbooks_models exA exB) ↔ dashB ∈ keys exA ∨ dashB ∈ keys exB) := by
  refine ⟨by decide, by decide, ?_, ?_⟩
  · have h := (merge_workbooks_models_spec exA exB (by decide) (by decide)).1 dashA
    rw [show alookup dashA exA = some [recOrders] from by decide,
      show alookup dashA exB = some [recCustomers] from by decide] at h
    exact h
  · exact (merge_workbooks_models_spec exA exB (by decide) (by decide)).2 dashB

/-- C3: `_should_ignore_workbook` returns true when the workbook's project
name is empty, true when the project name belongs to the ignore collection,
and false when the project name is non-empty and not in the collection. -/
theorem should_ignore_workbook_spec (workbook : Workbook)
    (projects_to_ignore : List String) :
    (workbook.project_name = "" →
      should_ignore_workbook workbook projects_to_ignore = true) ∧
    (workbook.project_name ∈ projects_to_ignore →
      should_ignore_workbook workbook projects_to_ignore = true) ∧
    (workbook.project_name ≠ "" → workbook.project_name ∉ projects_to_ignore →
      should_ignore_workbook workbook projects_to_ignore = false) := by
  unfold should_ignore_workbook
  by_cases h : workbook.project_name = "" <;> simp [h]

/-- C3 witness: the three cases at concrete workbooks. -/
theorem should_ignore_workbook_spec_witness :
    should_ignore_workbook { name := "wb", project_name := "", owner_id := 3 }
      ["Sales"] = true ∧
    should_ignore_workbook { name := "wb", project_name := "Sales", owner_id := 3 }
      ["Sales"] = true ∧
    should_ignore_workbook { name := "wb", project_name := "Marketing", owner_id := 3 }
      ["Sales"] = false :=
  ⟨(should_ignore_workbook_spec _ ["Sales"]).1 rfl,
   (should_ignore_workbook_spec _ ["Sales"]).2.1 (by simp),
   (should_ignore_workbook_spec _ ["Sales"]).2.2 (by simp) (by simp)⟩

/-- C10: every value list in both per-source aggregator outputs and in the
merged mapping is non-empty, so every dashboard reaching the exposure loop
carries at least one matched relation record. -/
theorem aggregated_match_lists_nonempty (search : String → List ModelRec)
    (cs ns : List (WorkbookRef × List String)) :
    (∀ p ∈ parse_tables_from_sql search cs, p.2 ≠ []) ∧
    (∀ p ∈ parse_tables_from_sql search ns, p.2 ≠ []) ∧
    (∀ p ∈ merge_workbooks_models (parse_tables_from_sql search cs)
        (parse_tables_from_sql search ns), p.2 ≠ []) :=
  ⟨parse_tables_values_nonempty search cs,
   parse_tables_values_nonempty search ns,
   merge_values_nonempty _ _ (parse_tables_values_nonempty search cs)
     (parse_tables_values_nonempty search ns)⟩

/-- C10 witness: a concrete entry of a concrete merged mapping, shown
non-empty by the theorem. -/
theorem aggregated_match_lists_nonempty_witness :
    (dashA, [recOrders]) ∈ merge_workbooks_models
      (parse_tables_from_sql exSearch exCustomWs) (parse_tables_from_sql exSearch []) ∧
    ([recOrders] : List ModelRec) ≠ [] := by
  constructor
  · decide
  · exact (aggregated_match_lists_nonempty exSearch exCustomWs []).2.2
      (dashA, [recOrders]) (by decide)

theorem count_dedup_by_unique_id (l : List ModelRec) (u : String) :
    ((dedup_by_unique_id l).map (fun m => m.unique_id)).count u
      = if u ∈ l.map (fun m => m.unique_id) then 1 else 0 := by
  have H : ∀ (n : Nat) (l : List ModelRec), l.length ≤ n → ∀ u : String,
      ((dedup_by_unique_id l).map (fun m => m.unique_id)).count u
        = if u ∈ l.map (fun m => m.unique_id) then 1 else 0 := by
    intro n
    induction n with
    | zero =>
      intro l hl u
      have h0 : l = [] := List.length_eq_zero.mp (Nat.le_zero.mp hl)
      subst h0
      simp [dedup_by_unique_id]
    | succ n ih =>
      intro l hl u
      match l with
      | [] => simp [dedup_by_unique_id]
      | r :: rest =>
        have hlen : (rest.filter (fun s => decide (s.unique_id ≠ r.unique_id))).length ≤ n := by
          have h1 := List.length_filter_le (fun s => decide (s.unique_id ≠ r.unique_id)) rest
          have h2 : rest.length + 1 ≤ n + 1 := by simpa using hl
          omega
        rw [show dedup_by_unique_id (r :: rest)
            = r :: dedup_by_unique_id
                (rest.filter (fun s => decide (s.unique_id ≠ r.unique_id))) from by
          rw [dedup_by_unique_id]]
        rw [List.map_cons, List.count_cons, ih _ hlen u]
        by_cases hu : u = r.unique_id
        · subst hu
          have hnot : u ∉ ((rest.filter
              (fun s => decide (s.unique_id ≠ u))).map (fun m => m.unique_id)) := by
            intro hc
            rcases List.mem_map.mp hc with ⟨s, hs, hsu⟩
            rcases List.mem_filter.mp hs with ⟨-, hsne⟩
            rw [decide_eq_true_eq] at hsne
            exact hsne hsu
          simp [hnot]
        · have hiff : u ∈ ((rest.filter
              (fun s => decide (s.unique_id ≠ r.unique_id))).map (fun m => m.unique_id))
              ↔ u ∈ rest.map (fun m => m.unique_id) := by
            constructor
            · intro hc
              rcases List.mem_map.mp hc with ⟨s, hs, hsu⟩
              exact List.mem_map.mpr ⟨s, (List.mem_filter.mp hs).1, hsu⟩
            · intro hc
              rcases List.mem_map.mp hc with ⟨s, hs, hsu⟩
              refine List.mem_map.mpr ⟨s, List.mem_filter.mpr ⟨hs, ?_⟩, hsu⟩
              rw [decide_eq_true_eq]
              intro hne
              exact hu (hsu ▸ hne ▸ rfl)

          simp only [hiff]
          have hne2 : ¬ r.unique_id = u := fun hc => hu hc.symm
          by_cases hmem : u ∈ rest.map (fun m => m.unique_id) <;>
            simp [hmem, hu, hne2]
  exact H l.length l (Nat.le_refl _) u

/-- C4: if a relation unique id appears more than once in the merged match
list handed to the Exposure (for instance once from the custom-SQL source and
once from the native-SQL source), the constructed depends-on list contains
that unique id exactly once; the tie-break is deterministic (first occurrence
wins in this model). -/
theorem exposure_depends_on_dedups (found : List ModelRec) (u : String)
    (h : 1 < (found.map (fun m => m.unique_id)).count u) :
    (exposure_depends_on found).count u = 1 := by
  unfold exposure_depends_on
  rw [count_dedup_by_unique_id]
  rw [if_pos (List.count_pos_iff.mp (by omega))]

/-- C4 witness: the duplicated orders record (one occurrence per SQL source)
appears exactly once in the depends-on list. -/
theorem exposure_depends_on_dedups_witness :
    1 < (([recOrders, recCustomers, recOrders]).map (fun m => m.unique_id)).count
        "model.jaffle_shop.orders" ∧
    (exposure_depends_on [recOrders, recCustomers, recOrders]).count
        "model.jaffle_shop.orders" = 1 :=
  ⟨by decide, exposure_depends_on_dedups [recOrders, recCustomers, recOrders]
    "model.jaffle_shop.orders" (by decide)⟩

/-- C6: for every dashboard of the merged mapping, the exposure loop fetches
the workbook metadata and then the owner identity before the exclusion check:
the trace holds the two fetch events immediately before the skip-or-register
decision, also for excluded dashboards; an excluded dashboard yields a skip
event (no exposure, no error) and the surrounding trace continues around it. -/
theorem build_exposures_fetch_before_exclusion (retrieve_workbook : Nat → Workbook)
    (retrieve_user : Nat → TableauUser) (projects_to_ignore : List String)
    (wm : List (WorkbookRef × List ModelRec)) (wr : WorkbookRef)
    (found : List ModelRec) (hmem : (wr, found) ∈ wm) :
    ∃ t1 t2,
      build_exposures retrieve_workbook retrieve_user projects_to_ignore wm
        = t1 ++ Event.fetchWorkbook wr.id
            :: Event.fetchUser (retrieve_workbook wr.id).owner_id
            :: (if should_ignore_workbook (retrieve_workbook wr.id) projects_to_ignore
                then Event.skipWorkbook wr.id
                else Event.addExposure wr.id)
            :: t2 := by
  induction wm with
  | nil => cases hmem
  | cons p rest ih =>
    obtain ⟨wr0, found0⟩ := p
    rcases List.mem_cons.mp hmem with heq | h
    · rw [Prod.mk.injEq] at heq
      obtain ⟨h1, h2⟩ := heq
      subst h1
      exact ⟨[], build_exposures retrieve_workbook retrieve_user projects_to_ignore rest,
        by simp [build_exposures]⟩
    · obtain ⟨t1, t2, ht⟩ := ih h
      refine ⟨Event.fetchWorkbook wr0.id
          :: Event.fetchUser (retrieve_workbook wr0.id).owner_id
          :: (if should_ignore_workbook (retrieve_workbook wr0.id) projects_to_ignore
              then Event.skipWorkbook wr0.id
              else Event.addExposure wr0.id) :: t1, t2, ?_⟩
      simp [build_exposures, ht]

/-- C6 witness: a concrete loop over two dashboards, instantiated at the
second one, which sits in a personal space and is excluded after its two
fetches. -/
theorem build_exposures_fetch_before_exclusion_witness :
    ∃ t1 t2,
      build_exposures exRetrieveWorkbook exRetrieveUser []
          [(dashA, [recOrders]), (dashB, [recCustomers])]
        = t1 ++ Event.fetchWorkbook dashB.id
            :: Event.fetchUser (exRetrieveWorkbook dashB.id).owner_id
            :: (if should_ignore_workbook (exRetrieveWorkbook dashB.id) []
                then Event.skipWorkbook dashB.id
                else Event.addExposure dashB.id)
            :: t2 :=
  build_exposures_fetch_before_exclusion exRetrieveWorkbook exRetrieveUser []
    [(dashA, [recOrders]), (dashB, [recCustomers])] dashB [recCustomers] (by simp)

theorem count_addExposure_build (f : Nat → Workbook) (g : Nat → TableauUser)
    (ign : List String) (wm : List (WorkbookRef × List ModelRec)) (k : Nat) :
    (build_exposures f g ign wm).count (Event.addExposure k)
      = wm.countP
          (fun p => decide (p.1.id = k) && !should_ignore_workbook (f p.1.id) ign) := by
  induction wm with
  | nil => simp [build_exposures]
  | cons p rest ih =>
    obtain ⟨wr0, found0⟩ := p
    rw [show build_exposures f g ign ((wr0, found0) :: rest)
        = Event.fetchWorkbook wr0.id
          :: Event.fetchUser (f wr0.id).owner_id
          :: (if should_ignore_workbook (f wr0.id) ign then Event.skipWorkbook wr0.id
              else Event.addExposure wr0.id)
          :: build_exposures f g ign rest from by simp [build_exposures]]
    rw [List.countP_cons]
    by_cases hig : should_ignore_workbook (f wr0.id) ign
    · simp [List.count_cons, hig, ih]
    · by_cases hk : wr0.id = k
      · simp [List.count_cons, hig, hk, ih]
      · simp [List.count_cons, hig, hk, ih]

theorem countP_id_unique (f : Nat → Workbook) (ign : List String)
    {wm : List (WorkbookRef × List ModelRec)}
    (hid : (wm.map (fun p => p.1.id)).Nodup) {wr : WorkbookRef}
    {found : List ModelRec} (hmem : (wr, found) ∈ wm) :
    wm.countP (fun p => decide (p.1.id = wr.id) && !should_ignore_workbook (f p.1.id) ign)
      = if should_ignore_workbook (f wr.id) ign then 0 else 1 := by
  induction wm with
  | nil => cases hmem
  | cons p rest ih =>
    obtain ⟨wr0, found0⟩ := p
    rw [List.map_cons, List.nodup_cons] at hid
    rw [List.countP_cons]
    rcases List.mem_cons.mp hmem with heq | h
    · rw [Prod.mk.injEq] at heq
      obtain ⟨h1, h2⟩ := heq
      subst h1
      have hrest : rest.countP
          (fun p => decide (p.1.id = wr.id) && !should_ignore_workbook (f p.1.id) ign)
            = 0 := by
        rw [List.countP_eq_zero]
        intro q hq
        simp only [Bool.and_eq_true, decide_eq_true_eq, not_and]
        intro hqid _
        exact absurd (hqid ▸ List.mem_map.mpr ⟨q, hq, rfl⟩) hid.1
      rw [hrest]
      by_cases hig : should_ignore_workbook (f wr.id) ign <;> simp [hig]
    · have hwrid : wr.id ∈ rest.map (fun p => p.1.id) :=
        List.mem_map.mpr ⟨(wr, found), h, rfl⟩
      have hne : ¬ wr0.id = wr.id := fun hcc => hid.1 (hcc ▸ hwrid)
      rw [ih hid.2 h]
      simp [hne]

/-- C9: the merged mapping has distinct keys; assuming the dashboard
identifiers are distinct (one Tableau workbook per id), each non-excluded
dashboard of the merged mapping yields exactly one exposure registration in
the loop's trace and each excluded dashboard yields none. -/
theorem crawler_one_exposure_per_dashboard (retrieve_workbook : Nat → Workbook)
    (retrieve_user : Nat → TableauUser) (projects_to_ignore : List String)
    (a b : List (WorkbookRef × List ModelRec))
    (hid : ((merge_workbooks_models a b).map (fun p => p.1.id)).Nodup) :
    (keys (merge_workbooks_models a b)).Nodup ∧
    ∀ wr found, (wr, found) ∈ merge_workbooks_models a b →
      (build_exposures retrieve_workbook retrieve_user projects_to_ignore
          (merge_workbooks_models a b)).count (Event.addExposure wr.id)
        = if should_ignore_workbook (retrieve_workbook wr.id) projects_to_ignore
          then 0 else 1 := by
  refine ⟨nodup_keys_merge_workbooks_models a b, ?_⟩
  intro wr found hmem
  rw [count_addExposure_build]
  exact countP_id_unique retrieve_workbook projects_to_ignore hid hmem

/-- C9 witness: on a concrete merged mapping with distinct ids, the
non-excluded dashboard gets exactly one exposure registration. -/
theorem crawler_one_exposure_per_dashboard_witness :
    ((merge_workbooks_models exA exB).map (fun p => p.1.id)).Nodup ∧
    (dashA, [recOrders, recCustomers]) ∈ merge_workbooks_models exA exB ∧
    (build_exposures exRetrieveWorkbook exRetrieveUser []
        (merge_workbooks_models exA exB)).count (Event.addExposure dashA.id) = 1 := by
  refine ⟨by decide, by decide, ?_⟩
  have h := (crawler_one_exposure_per_dashboard exRetrieveWorkbook exRetrieveUser []
    exA exB (by decide)).2 dashA [recOrders, recCustomers] (by decide)
  rw [show should_ignore_workbook (exRetrieveWorkbook dashA.id) [] = false from by
    decide] at h
  simpa using h

theorem persist_not_in_build_exc {ε : Type} (f : Nat → Except ε Workbook)
    (g : Nat → Except ε TableauUser) (ign : List String)
    (wm : List (WorkbookRef × List ModelRec)) :
    Event.persist ∉ (build_exposures_exc f g ign wm).1 := by
  induction wm with
  | nil => simp [build_exposures_exc]
  | cons p rest ih =>
    obtain ⟨wr0, found0⟩ := p
    cases hf : f wr0.id with
    | error e => simp [build_exposures_exc, hf]
    | ok wb =>
      cases hg : g wb.owner_id with
      | error e => simp [build_exposures_exc, hf, hg]
      | ok u =>
        by_cases hig : should_ignore_workbook wb ign <;>
          simp [build_exposures_exc, hf, hg, hig, ih]

theorem build_exc_abort {ε : Type} (f : Nat → Except ε Workbook)
    (g : Nat → Except ε TableauUser) (ign : List String)
    (pre post : List (WorkbookRef × List ModelRec)) (wr : WorkbookRef)
    (found : List ModelRec)
    (hnd : ((pre ++ (wr, found) :: post).map (fun p => p.1.id)).Nodup)
    (hfail : fetch_fails f g wr) :
    (build_exposures_exc f g ign (pre ++ (wr, found) :: post)).2.isSome = true ∧
    Event.addExposure wr.id ∉ (build_exposures_exc f g ign (pre ++ (wr, found) :: post)).1 ∧
    ∀ wr' found', (wr', found') ∈ post →
      Event.addExposure wr'.id ∉
        (build_exposures_exc f g ign (pre ++ (wr, found) :: post)).1 := by
  induction pre with
  | nil =>
    simp only [List.nil_append]
    rcases hfail with ⟨e, he⟩ | ⟨wb, e, hok, he⟩
    · rw [show build_exposures_exc f g ign ((wr, found) :: post) = ([], some e) from by
        simp [build_exposures_exc, he]]
      exact ⟨rfl, by simp, fun wr' found' _ => by simp⟩
    · rw [show build_exposures_exc f g ign ((wr, found) :: post)
          = ([Event.fetchWorkbook wr.id], some e) from by
        simp [build_exposures_exc, hok, he]]
      exact ⟨rfl, by simp, fun wr' found' _ => by simp⟩
  | cons p pre' ih =>
    obtain ⟨wr0, found0⟩ := p
    simp only [List.cons_append] at hnd ⊢
    rw [List.map_cons, List.nodup_cons] at hnd
    have ihres := ih hnd.2
    have hwrmem : wr.id ∈ ((pre' ++ (wr, found) :: post).map (fun p => p.1.id)) :=
      List.mem_map.mpr ⟨(wr, found), by simp, rfl⟩
    have hne : ¬ wr0.id = wr.id := fun hc => hnd.1 (hc ▸ hwrmem)
    cases hf : f wr0.id with
    | error e =>
      rw [show build_exposures_exc f g ign
            ((wr0, found0) :: (pre' ++ (wr, found) :: post)) = ([], some e) from by
        simp [build_exposures_exc, hf]]
      exact ⟨rfl, by simp, fun wr' found' _ => by simp⟩
    | ok wb =>
      cases hg : g wb.owner_id with
      | error e =>
        rw [show build_exposures_exc f g ign
              ((wr0, found0) :: (pre' ++ (wr, found) :: post))
            = ([Event.fetchWorkbook wr0.id], some e) from by
          simp [build_exposures_exc, hf, hg]]
        exact ⟨rfl, by simp, fun wr' found' _ => by simp⟩
      | ok u =>
        rw [show build_exposures_exc f g ign
              ((wr0, found0) :: (pre' ++ (wr, found) :: post))
            = (Event.fetchWorkbook wr0.id
                :: Event.fetchUser wb.owner_id
                :: (if should_ignore_workbook wb ign then Event.skipWorkbook wr0.id
                    else Event.addExposure wr0.id)
                :: (build_exposures_exc f g ign (pre' ++ (wr, found) :: post)).1,
               (build_exposures_exc f g ign (pre' ++ (wr, found) :: post)).2) from by
          simp [build_exposures_exc, hf, hg]]
        refine ⟨ihres.1, ?_, ?_⟩
        · intro hc
          rcases List.mem_cons.mp hc with h1 | hc
          · exact Event.noConfusion h1
          rcases List.mem_cons.mp hc with h1 | hc
          · exact Event.noConfusion h1
          rcases List.mem_cons.mp hc with h1 | hc
          · by_cases hig : should_ignore_workbook wb ign
            · rw [if_pos hig] at h1
              exact Event.noConfusion h1
            · rw [if_neg hig] at h1
              exact hne (Event.addExposure.injEq .. ▸ h1).symm
          · exact ihres.2.1 hc
        · intro wr' found' hm hc
          have hwrmem' : wr'.id ∈ ((pre' ++ (wr, found) :: post).map (fun p => p.1.id)) :=
            List.mem_map.mpr ⟨(wr', found'), by simp [hm], rfl⟩
          have hne' : ¬ wr0.id = wr'.id := fun hcc => hnd.1 (hcc ▸ hwrmem')
          rcases List.mem_cons.mp hc with h1 | hc
          · exact Event.noConfusion h1
          rcases List.mem_cons.mp hc with h1 | hc
          · exact Event.noConfusion h1
          rcases List.mem_cons.mp hc with h1 | hc
          · by_cases hig : should_ignore_workbook wb ign
            · rw [if_pos hig] at h1
              exact Event.noConfusion h1
            · rw [if_neg hig] at h1
              exact hne' (Event.addExposure.injEq .. ▸ h1).symm
          · exact ihres.2.2 wr' found' hm hc

/-- C8: if the metadata fetch (retrieve_workbook or retrieve_user) fails for
a dashboard of the merged mapping, the error propagates out of the run: the
run result carries the error, no exposure is registered for the failing
dashboard nor for any later dashboard in iteration order, and the manifest
is never persisted. -/
theorem crawler_metadata_failure_aborts {ε : Type} (f : Nat → Except ε Workbook)
    (g : Nat → Except ε TableauUser) (ign : List String)
    (pre post : List (WorkbookRef × List ModelRec)) (wr : WorkbookRef)
    (found : List ModelRec)
    (hnd : ((pre ++ (wr, found) :: post).map (fun p => p.1.id)).Nodup)
    (hfail : fetch_fails f g wr) :
    (run_crawler_exc f g ign (pre ++ (wr, found) :: post)).2.isSome = true ∧
    Event.persist ∉ (run_crawler_exc f g ign (pre ++ (wr, found) :: post)).1 ∧
    Event.addExposure wr.id ∉ (run_crawler_exc f g ign (pre ++ (wr, found) :: post)).1 ∧
    ∀ wr' found', (wr', found') ∈ post →
      Event.addExposure wr'.id ∉
        (run_crawler_exc f g ign (pre ++ (wr, found) :: post)).1 := by
  have hb := build_exc_abort f g ign pre post wr found hnd hfail
  have hp := persist_not_in_build_exc f g ign (pre ++ (wr, found) :: post)
  cases hbe : build_exposures_exc f g ign (pre ++ (wr, found) :: post) with
  | mk t r =>
    rw [hbe] at hb hp
    cases r with
    | none => simp at hb
    | some e =>
      rw [show run_crawler_exc f g ign (pre ++ (wr, found) :: post) = (t, some e) from by
        rw [run_crawler_exc, hbe]]
      exact ⟨rfl, by simpa using hp, by simpa using hb.2.1,
        fun wr' found' hm => by simpa using hb.2.2 wr' found' hm⟩

/-- C8 witness: a concrete run where the workbook fetch of the second
dashboard raises; the run carries the error, registers no exposure for that
dashboard and never persists. -/
theorem crawler_metadata_failure_aborts_witness :
    (run_crawler_exc exRetrieveWorkbookExc exRetrieveUserExc []
        [(dashA, [recOrders]), (dashB, [recCustomers])]).2.isSome = true ∧
    Event.persist ∉ (run_crawler_exc exRetrieveWorkbookExc exRetrieveUserExc []
        [(dashA, [recOrders]), (dashB, [recCustomers])]).1 ∧
    Event.addExposure dashB.id ∉ (run_crawler_exc exRetrieveWorkbookExc exRetrieveUserExc []
        [(dashA, [recOrders]), (dashB, [recCustomers])]).1 := by
  have h := crawler_metadata_failure_aborts exRetrieveWorkbookExc exRetrieveUserExc []
    [(dashA, [recOrders])] [] dashB [recCustomers] (by decide) (Or.inl ⟨"boom", rfl⟩)
  exact ⟨h.1, h.2.1, h.2.2.1⟩

theorem search_all_exc_error {ε : Type} (search : String → Except ε (List ModelRec))
    (sqls : List String) (q : String) (e : ε) (hq : q ∈ sqls)
    (he : search q = Except.error e) :
    ∃ e', search_all_exc search sqls = Except.error e' := by
  induction sqls with
  | nil => cases hq
  | cons q0 rest ih =>
    rcases List.mem_cons.mp hq with h | h
    · subst h
      exact ⟨e, by simp [search_all_exc, he]⟩
    · cases hs : search q0 with
      | error e0 => exact ⟨e0, by simp [search_all_exc, hs]⟩
      | ok v =>
        obtain ⟨e', he'⟩ := ih h
        exact ⟨e', by simp [search_all_exc, hs, he']⟩

theorem parse_exc_error {ε : Type} (search : String → Except ε (List ModelRec))
    (ws : List (WorkbookRef × List String)) (wr : WorkbookRef) (sqls : List String)
    (q : String) (e : ε) (hmem : (wr, sqls) ∈ ws) (hq : q ∈ sqls)
    (he : search q = Except.error e) :
    ∃ e', parse_tables_from_sql_exc search ws = Except.error e' := by
  induction ws with
  | nil => cases hmem
  | cons p rest ih =>
    obtain ⟨wr0, sqls0⟩ := p
    rcases List.mem_cons.mp hmem with heq | h
    · rw [Prod.mk.injEq] at heq
      obtain ⟨h1, h2⟩ := heq
      subst h2
      obtain ⟨e', he'⟩ := search_all_exc_error search sqls q e hq he
      exact ⟨e', by simp [parse_tables_from_sql_exc, he']⟩
    · cases hs : search_all_exc search sqls0 with
      | error e0 => exact ⟨e0, by simp [parse_tables_from_sql_exc, hs]⟩
      | ok v =>
        obtain ⟨e', he'⟩ := ih h
        exact ⟨e', by simp [parse_tables_from_sql_exc, hs, he']⟩

theorem search_all_exc_ok {ε : Type} (s : String → List ModelRec) (sqls : List String) :
    search_all_exc (fun q => (Except.ok (s q) : Except ε (List ModelRec))) sqls
      = Except.ok ((sqls.map s).flatten) := by
  induction sqls with
  | nil => simp [search_all_exc]
  | cons q rest ih => simp [search_all_exc, ih]

theorem parse_exc_ok {ε : Type} (s : String → List ModelRec)
    (ws : List (WorkbookRef × List String)) :
    parse_tables_from_sql_exc (fun q => (Except.ok (s q) : Except ε (List ModelRec))) ws
      = Except.ok (parse_tables_from_sql s ws) := by
  induction ws with
  | nil => simp [parse_tables_from_sql_exc, parse_tables_from_sql]
  | cons p rest ih =>
    obtain ⟨wr0, sqls0⟩ := p
    by_cases he : ((sqls0.map s).flatten).isEmpty <;>
      simp [parse_tables_from_sql_exc, search_all_exc_ok, ih, parse_tables_from_sql, he]

/-- C7 counterexample: a dashboard whose first snippet makes the matcher
raise and whose second snippet matches a known relation.  The aggregator
returns the error instead of the claimed partial aggregation of the
remaining snippet. -/
theorem snippet_failure_not_isolated_cex :
    parse_tables_from_sql_exc badSearch exBrokenWs = Except.error "scan failure" ∧
    parse_tables_from_sql_exc badSearch exBrokenWs ≠ Except.ok [(dashA, [recOrders])] := by
  constructor
  · rfl
  · intro h
    rw [show parse_tables_from_sql_exc badSearch exBrokenWs
        = Except.error "scan failure" from rfl] at h
    exact Except.noConfusion h

/-- C7 amended: an error raised by the matcher on any snippet propagates out
of `_parse_tables_from_sql` and aborts the whole aggregation (the loop of
tableau.py lines 49-51 has no try/except); snippet-level isolation holds
only for snippets on which the matcher succeeds with zero matches, so with
an error-free matcher the aggregation is exactly the plain one. -/
theorem snippet_failure_aborts_aggregation {ε : Type} :
    (∀ (search : String → Except ε (List ModelRec))
        (ws : List (WorkbookRef × List String)) (wr : WorkbookRef)
        (sqls : List String) (q : String) (e : ε),
      (wr, sqls) ∈ ws → q ∈ sqls → search q = Except.error e →
      ∃ e', parse_tables_from_sql_exc search ws = Except.error e') ∧
    (∀ (s : String → List ModelRec) (ws : List (WorkbookRef × List String)),
      parse_tables_from_sql_exc (fun q => (Except.ok (s q) : Except ε (List ModelRec))) ws
        = Except.ok (parse_tables_from_sql s ws)) :=
  ⟨fun search ws wr sqls q e hmem hq he => parse_exc_error search ws wr sqls q e hmem hq he,
   fun s ws => parse_exc_ok s ws⟩

/-- C7 witness for the amended claim: the concrete broken input aborts with
an error, and an error-free matcher on a concrete input aggregates as the
plain aggregator does. -/
theorem snippet_failure_aborts_aggregation_witness :
    (∃ e', parse_tables_from_sql_exc badSearch exBrokenWs = Except.error e') ∧
    parse_tables_from_sql_exc
        (fun q => (Except.ok (exSearch q) : Except String (List ModelRec))) exCustomWs
      = Except.ok (parse_tables_from_sql exSearch exCustomWs) :=
  ⟨(@snippet_failure_aborts_aggregation String).1 badSearch exBrokenWs dashA
      ["BROKEN", "select * from orders"] "BROKEN" "scan failure"
      (by simp [exBrokenWs]) (by simp) rfl,
   (@snippet_failure_aborts_aggregation String).2 exSearch exCustomWs⟩

theorem containsToken_iff (name text : List Char) :
    containsToken name text = true ↔ OccursAsToken name text := by
  unfold containsToken OccursAsToken
  rw [List.any_eq_true]
  constructor
  · rintro ⟨i, hir, hocc⟩
    rw [List.mem_range] at hir
    have hi : i ≤ text.length := Nat.lt_succ_iff.mp hir
    unfold occursTokenAt at hocc
    rw [Bool.and_eq_true, Bool.and_eq_true] at hocc
    obtain ⟨⟨h1, h2⟩, h3⟩ := hocc
    rw [decide_eq_true_eq] at h1
    have hsplit : text.drop i = name ++ text.drop (i + name.length) := by
      conv_lhs => rw [← List.take_append_drop name.length (text.drop i)]
      rw [h1, List.drop_drop]
    refine ⟨text.take i, text.drop (i + name.length), ?_, ?_, ?_⟩
    · conv_lhs => rw [← List.take_append_drop i text]
      rw [hsplit, List.append_assoc]
    · by_cases hi0 : i = 0
      · subst hi0
        simp [boundaryOk]
      · obtain ⟨j, rfl⟩ : ∃ j, i = j + 1 := ⟨i - 1, by omega⟩
        rw [if_neg hi0] at h2
        have hlen : (text.take (j + 1)).length = j + 1 := by
          rw [List.length_take]
          omega
        rw [List.getLast?_eq_getElem?, hlen, Nat.add_sub_cancel,
          List.getElem?_take_of_lt (by omega)]
        simpa using h2
    · rw [List.head?_eq_getElem?, List.getElem?_drop]
      simpa using h3
  · rintro ⟨pre, post, hdec, hpre, hpost⟩
    refine ⟨pre.length, ?_, ?_⟩
    · rw [List.mem_range, hdec, List.length_append, List.length_append]
      omega
    · unfold occursTokenAt
      rw [Bool.and_eq_true, Bool.and_eq_true]
      refine ⟨⟨?_, ?_⟩, ?_⟩
      · rw [decide_eq_true_eq, hdec, List.append_assoc, List.drop_left, List.take_left]
      · cases hpl : pre.length with
        | zero =>
          simp [boundaryOk, hpl]
        | succ j =>
          rw [if_neg (Nat.succ_ne_zero j), Nat.add_sub_cancel, hdec,
            List.append_assoc,
            List.getElem?_append_left (show j < pre.length by omega)]
          have hgl : pre.getLast? = pre[j]? := by
            rw [List.getLast?_eq_getElem?, hpl, Nat.add_sub_cancel]
          rw [← hgl]
          exact hpre
      · rw [hdec,
          List.getElem?_append_right (by rw [List.length_append]),
          List.length_append, Nat.sub_self, ← List.head?_eq_getElem?]
        exact hpost

/-- C5: for every registry and query, a relation of the registry whose
(lower-cased) unqualified or qualified name occurs in the (lower-cased)
query as a standalone token has its unique id in the matcher's result; a
relation whose name occurs in the query only as a strict substring of a
longer identifier (its occurrences never have token boundaries) is absent
from the result. -/
theorem search_model_in_query_token_matching (models : List ModelRec)
    (query : String) (m : ModelRec) (hm : m ∈ models) :
    ((OccursAsToken (lowerChars m.materialized_name.toList)
        (lowerChars query.toList) ∨
      OccursAsToken (lowerChars (model_qualified_name m).toList)
        (lowerChars query.toList)) →
      m.unique_id ∈ (search_model_in_query query models).map (fun r => r.unique_id)) ∧
    ((∃ u v, lowerChars query.toList
        = u ++ lowerChars m.materialized_name.toList ++ v) →
      ¬ OccursAsToken (lowerChars m.materialized_name.toList)
        (lowerChars query.toList) →
      ¬ OccursAsToken (lowerChars (model_qualified_name m).toList)
        (lowerChars query.toList) →
      m ∉ search_model_in_query query models) := by
  constructor
  · intro hocc
    have hb : (containsToken (lowerChars m.materialized_name.toList)
          (lowerChars query.toList)
        || containsToken (lowerChars (model_qualified_name m).toList)
          (lowerChars query.toList)) = true := by
      rw [Bool.or_eq_true]
      rcases hocc with h | h
      · exact Or.inl ((containsToken_iff _ _).mpr h)
      · exact Or.inr ((containsToken_iff _ _).mpr h)
    exact List.mem_map.mpr ⟨m, List.mem_filter.mpr ⟨hm, hb⟩, rfl⟩
  · intro _ h1 h2 hc
    rcases List.mem_filter.mp hc with ⟨-, hb⟩
    rw [Bool.or_eq_true] at hb
    rcases hb with hb | hb
    · exact h1 ((containsToken_iff _ _).mp hb)
    · exact h2 ((containsToken_iff _ _).mp hb)

/-- C5 witness: `orders` as a standalone token of a concrete query is
found; in a query where `orders` occurs only inside the longer identifier
`stg_orders`, the relation is absent from the result. -/
theorem search_model_in_query_token_matching_witness :
    "model.jaffle_shop.orders" ∈ (search_model_in_query "select * from orders"
        [recOrders]).map (fun r => r.unique_id) ∧
    (∃ u v, lowerChars "select x from stg_orders".toList
        = u ++ lowerChars "orders".toList ++ v) ∧
    recOrders ∉ search_model_in_query "select x from stg_orders" [recOrders] := by
  have hocc : OccursAsToken (lowerChars "orders".toList)
      (lowerChars "select * from orders".toList) :=
    (containsToken_iff _ _).mp (by decide)
  have hn1 : ¬ OccursAsToken (lowerChars "orders".toList)
      (lowerChars "select x from stg_orders".toList) := by
    intro hP
    have hcc := (containsToken_iff _ _).mpr hP
    rw [show containsToken (lowerChars "orders".toList)
        (lowerChars "select x from stg_orders".toList) = false from by decide] at hcc
    exact Bool.noConfusion hcc
  have hn2 : ¬ OccursAsToken (lowerChars (model_qualified_name recOrders).toList)
      (lowerChars "select x from stg_orders".toList) := by
    intro hP
    have hcc := (containsToken_iff _ _).mpr hP
    rw [show containsToken (lowerChars (model_qualified_name recOrders).toList)
        (lowerChars "select x from stg_orders".toList) = false from by decide] at hcc
    exact Bool.noConfusion hcc
  refine ⟨?_, ⟨"select x from stg_".toList, [], by decide⟩, ?_⟩
  · exact (search_model_in_query_token_matching [recOrders] "select * from orders"
      recOrders (by simp)).1 (Or.inl hocc)
  · exact (search_model_in_query_token_matching [recOrders] "select x from stg_orders"
      recOrders (by simp)).2
      ⟨"select x from stg_".toList, [], by decide⟩ hn1 hn2

end ExposuresCrawler
